import Mathlib

/-!
Shallow embedding of `jsonconfigparser.py` (the `JSONConfigParser` class, its
exception classes and the `SectionProxy` view), with theorems settling the
frozen claims about it.

Modelling conventions:
* Python `OrderedDict` values become insertion-ordered association lists
  (`OD α`): writing an existing key updates it in place, a new key appends.
* Object identity of interned strings (`section is self.default_section`) is
  modelled by string equality.
* Exceptions become an explicit error type `PyError`; a raised exception is an
  `Except.error`.  Python raise sites that themselves crash while trying to
  construct the exception (wrong constructor arity, missing attribute, `None`
  dereference) are modelled by the `typeError` / `attributeError`
  constructors, with the source line recorded in a comment at each site.
* On an exception Python keeps the mutations already performed by the failing
  call; the claims under study only concern the raised condition or the result
  of a successful call, so the embedding returns `Except` and drops the
  partial state on error.
-/

/-- A decoded JSON value, the result of `json.JSONDecoder().raw_decode`.
Numeric literals are kept as their source lexeme: no claim inspects a numeric
magnitude, and this avoids committing to float semantics. -/
inductive JSONValue where
  | null
  | bool (b : Bool)
  | num (lexeme : String)
  | str (s : String)
  | arr (items : List JSONValue)
  | obj (members : List (String × JSONValue))
deriving Repr

/-- The exception conditions of the source module, plus the runtime failures
(`TypeError` / `AttributeError` / `JSONDecodeError`) that its raise sites
actually produce.  `duplicateOption` and `missingSectionHeader` mirror classes
that exist in the source but are never successfully constructed (lines 37-45
and 80-89; see the theorems for C2 and C3).  `fuelOut` is an artifact of the
embedding of the scanning loop and is never produced on the inputs
considered. -/
inductive PyError where
  | noSection (sect : String)
  | noOption (opt : String)
  | duplicateSection (sect : String)
  | duplicateOption (sect opt : String)
  | invalidSectionName (sect : String)
  | invalidOptionName (opt : String)
  | missingSectionHeader (lineno : Nat) (line : String)
  | parseError (msg : String)
  | jsonDecodeError (pos : Nat)
  | typeError (msg : String)
  | attributeError (attr : String)
  | valueError (msg : String)
  | keyError (key : String)
  | fuelOut
deriving Repr, DecidableEq

/-- Insertion-ordered mapping (Python `OrderedDict` / dict): an association
list with unique keys by construction. -/
abbrev OD (α : Type) := List (String × α)

/-- `m[k]` lookup. -/
def odGet {α : Type} : OD α → String → Option α
  | [], _ => none
  | (k2, v) :: rest, k => if k2 = k then some v else odGet rest k

/-- `m[k] = v`: updates an existing key in place, appends a new key. -/
def odSet {α : Type} : OD α → String → α → OD α
  | [], k, v => [(k, v)]
  | (k2, v2) :: rest, k, v =>
    if k2 = k then (k2, v) :: rest else (k2, v2) :: odSet rest k v

/-- `del m[k]`: removes the (unique) binding of `k`, if any. -/
def odDel {α : Type} : OD α → String → OD α
  | [], _ => []
  | (k2, v) :: rest, k => if k2 = k then rest else (k2, v) :: odDel rest k

/-- Membership of a string in a list of strings (Python `x in tracking_set`). -/
def strMem (x : String) : List String → Bool
  | [] => false
  | y :: ys => if y = x then true else strMem x ys

/-- A stored section mapping.  `chained = true` models
`ChainMap({}, self._defaults)` as created by `add_section` (line 154):
membership and lookup fall through to the configuration's current defaults
(the ChainMap aliases the live defaults dict).  `chained = false` models the
plain dict created for a new section by `read_string` (line 301). -/
structure SectionDict where
  own : OD JSONValue
  chained : Bool
deriving Repr

/-- The `JSONConfigParser` object: the default-section name
(`_default_section`), the defaults mapping (`_defaults`) and the section store
(`_sections`).  The `_proxies` dict and the pluggable `_dict` factory are not
modelled: a `SectionProxy` is only a parser reference plus a section name and
holds no option data, and the factory is fixed to an insertion-ordered
mapping. -/
structure JSONConfigParser where
  default_section : String
  defaults : OD JSONValue
  sections : OD SectionDict
deriving Repr

/-- The state after `JSONConfigParser.__init__` before any defaults seeding
(lines 127-134). -/
def emptyConfig (ds : String) : JSONConfigParser := ⟨ds, [], []⟩

/-- Lookup of an option in a stored section mapping: the own entries, falling
through to the live defaults exactly when the mapping is a
`ChainMap({}, self._defaults)`. -/
def sectionLookup (cfg : JSONConfigParser) (s : SectionDict) (opt : String) :
    Option JSONValue :=
  match odGet s.own opt with
  | some v => some v
  | none => if s.chained then odGet cfg.defaults opt else none

/-- The first hit through `ChainMap(vars, section_dict)` (lines 224-228):
the per-call `vars` layer, then the section mapping's own resolution. -/
def chainFirst (vars : Option (OD JSONValue)) (opt : String)
    (base : Option JSONValue) : Option JSONValue :=
  match vars with
  | some vs =>
    match odGet vs opt with
    | some v => some v
    | none => base
  | none => base

/-- Lines 224-233 of `get`: layer the per-call `vars` over the section
mapping, test membership, then fall back or raise `NoOptionError`.
`fallback = none` models the `_UNSET` sentinel; `some f` a supplied fallback
(possibly `f = JSONValue.null`). -/
def getResolve (base : Option JSONValue) (opt : String)
    (fallback : Option JSONValue) (vars : Option (OD JSONValue)) :
    Except PyError JSONValue :=
  match chainFirst vars opt base with
  | some v => .ok v
  | none =>
    match fallback with
    | some f => .ok f
    | none => .error (.noOption opt)

/-- Mirrors `get` (lines 207-233): select `self._defaults` for the default
section, else the stored section dict, else raise `NoSectionError`; then
resolve through `ChainMap(vars, section_dict)` with the fallback rule. -/
def JSONConfigParser.get (cfg : JSONConfigParser) (sect opt : String)
    (fallback : Option JSONValue) (vars : Option (OD JSONValue)) :
    Except PyError JSONValue :=
  if sect = cfg.default_section then
    getResolve (odGet cfg.defaults opt) opt fallback vars
  else
    match odGet cfg.sections sect with
    | some s => getResolve (sectionLookup cfg s opt) opt fallback vars
    | none => .error (.noSection sect)

/-- The value (if any) the chain vars → section's own entries → defaults makes
visible: the membership test of lines 224-228, exposed as a definition so the
contract of `get` can be stated. -/
def JSONConfigParser.lookupChain (cfg : JSONConfigParser) (sect opt : String)
    (vars : Option (OD JSONValue)) : Option JSONValue :=
  chainFirst vars opt
    (if sect = cfg.default_section then odGet cfg.defaults opt
     else
       match odGet cfg.sections sect with
       | some s => sectionLookup cfg s opt
       | none => none)

/-- Mirrors `set` (lines 244-252): `not section or section == default` writes
into the defaults, otherwise the section must exist. -/
def JSONConfigParser.set (cfg : JSONConfigParser) (sect opt : String)
    (v : JSONValue) : Except PyError JSONConfigParser :=
  if sect = "" ∨ sect = cfg.default_section then
    .ok { cfg with defaults := odSet cfg.defaults opt v }
  else
    match odGet cfg.sections sect with
    | some s =>
      .ok { cfg with
            sections := odSet cfg.sections sect { s with own := odSet s.own opt v } }
    | none => .error (.noSection sect)

/-- Mirrors `has_section` (lines 157-158). -/
def JSONConfigParser.has_section (cfg : JSONConfigParser) (sect : String) : Bool :=
  (odGet cfg.sections sect).isSome

/-- Mirrors `add_section` (lines 142-155): `ValueError` for the default name,
`DuplicateSectionError` for an existing one, else a new
`ChainMap({}, self._defaults)` section. -/
def JSONConfigParser.add_section (cfg : JSONConfigParser) (sect : String) :
    Except PyError JSONConfigParser :=
  if sect = cfg.default_section then
    .error (.valueError ("Invalid section name: " ++ sect))
  else if (odGet cfg.sections sect).isSome then
    .error (.duplicateSection sect)
  else
    .ok { cfg with sections := odSet cfg.sections sect ⟨[], true⟩ }

/-- Mirrors `remove_section` (lines 160-169): returns whether the section
existed; it contains no check for the default section and no raise
statement. -/
def JSONConfigParser.remove_section (cfg : JSONConfigParser) (sect : String) :
    JSONConfigParser × Bool :=
  let existed := (odGet cfg.sections sect).isSome
  if existed then ({ cfg with sections := odDel cfg.sections sect }, true)
  else (cfg, false)

/-- Mirrors `__delitem__` (lines 185-189): `ValueError` for the default name,
else `remove_section` with `KeyError` when it returns `False`. -/
def JSONConfigParser.delitem (cfg : JSONConfigParser) (key : String) :
    Except PyError JSONConfigParser :=
  if key = cfg.default_section then
    .error (.valueError "Cannot remove the default section.")
  else
    let r := JSONConfigParser.remove_section cfg key
    if r.2 then .ok r.1 else .error (.keyError key)

/-- Mirrors `has_option` (lines 235-242): membership in the stored section
dict (which for a ChainMap section already sees the defaults) or in the
defaults. -/
def JSONConfigParser.has_option (cfg : JSONConfigParser) (sect opt : String) : Bool :=
  if sect = "" ∨ sect = cfg.default_section then (odGet cfg.defaults opt).isSome
  else
    match odGet cfg.sections sect with
    | some s => (sectionLookup cfg s opt).isSome || (odGet cfg.defaults opt).isSome
    | none => false

/-- Mirrors `options` (lines 200-205).  Line 205 returns
`self._section.keys()`, but the class never assigns an attribute `_section`
(the store is `_sections`), so the success path raises `AttributeError`. -/
def JSONConfigParser.options (cfg : JSONConfigParser) (sect : String) :
    Except PyError (List String) :=
  if JSONConfigParser.has_section cfg sect = false then .error (.noSection sect)
  else .error (.attributeError "_section")

/-- Mirrors `SectionProxy.__setitem__` (lines 358-360): the first statement
calls `self._parser._validate_value_types(option=key, value=value)`, but
`JSONConfigParser` defines no attribute `_validate_value_types`, so every
item assignment raises `AttributeError` before the delegation to `set` is
reached. -/
def proxySetItem (cfg : JSONConfigParser) (name k : String) (v : JSONValue) :
    Except PyError JSONConfigParser :=
  .error (.attributeError "_validate_value_types")

/-- The name charset of the grammar: `[A-Za-z0-9_-]` (the source pattern
`[\-\w]` restricted to ASCII input). -/
def isNameChar (c : Char) : Bool :=
  c.isAlphanum || c = '_' || c = '-'

/-- A valid section/option name: non-empty, all characters in the charset. -/
def validName (s : String) : Bool :=
  !s.data.isEmpty && s.data.all isNameChar

/-- Modelled from the spec: the source `read_dict` (lines 269-270) is only the
declaration `raise NotImplementedError()`; section 6 of the spec states the
bulk-load contract it must support: for each section key, create the section
if absent (or target the defaults layer), then `set` every option/value pair,
raising the same duplicate / invalid-name errors as text parsing would for
conflicting adds within the same call.  This definition processes the
option/value pairs of one section under that contract. -/
def readDictEntries (sname : String) :
    JSONConfigParser → List String → OD JSONValue → Except PyError JSONConfigParser
  | cfg, _, [] => .ok cfg
  | cfg, seen, (k, v) :: rest =>
    if validName k then
      if strMem k seen then .error (.duplicateOption sname k)
      else
        match JSONConfigParser.set cfg sname k v with
        | .error e => .error e
        | .ok cfg2 => readDictEntries sname cfg2 (k :: seen) rest
    else .error (.invalidOptionName k)

/-- Modelled from the spec: the per-section loop of the bulk-load contract
(see `readDictEntries`), with the per-call duplicate-section tracking. -/
def readDictSections :
    JSONConfigParser → List String → OD (OD JSONValue) → Except PyError JSONConfigParser
  | cfg, _, [] => .ok cfg
  | cfg, seenSects, (sname, entries) :: rest =>
    if validName sname then
      if strMem sname seenSects then .error (.duplicateSection sname)
      else
        let cfg1 :=
          if sname = cfg.default_section then cfg
          else if (odGet cfg.sections sname).isSome then cfg
          else { cfg with sections := odSet cfg.sections sname ⟨[], true⟩ }
        match readDictEntries sname cfg1 [] entries with
        | .error e => .error e
        | .ok cfg2 => readDictSections cfg2 (sname :: seenSects) rest
    else .error (.invalidSectionName sname)

/-- Modelled from the spec: `read_dict` as the bulk-load contract of spec
section 6 (the source body is `raise NotImplementedError()`). -/
def JSONConfigParser.read_dict (cfg : JSONConfigParser) (d : OD (OD JSONValue)) :
    Except PyError JSONConfigParser :=
  readDictSections cfg [] d

/-- Mirrors `__init__` (lines 127-136): build the empty model, then seed the
defaults through `read_dict` when a non-empty mapping is supplied (`if
defaults:` is false for `None` and for an empty mapping).  The `read_dict`
step is the spec-modelled one above. -/
def JSONConfigParser.initConfig (defaults : Option (OD JSONValue)) (ds : String) :
    Except PyError JSONConfigParser :=
  match defaults with
  | none => .ok (emptyConfig ds)
  | some [] => .ok (emptyConfig ds)
  | some d => JSONConfigParser.read_dict (emptyConfig ds) [(ds, d)]

/-! ### The text scanner (read_string, lines 272-334) and its regexes -/

/-- Line-terminator characters of the templates, `[\n\r]`. -/
def isNL (c : Char) : Bool := c = '\n' || c = '\r'

/-- Python `\s` on ASCII input: space, tab, newline, carriage return,
vertical tab, form feed. -/
def isPySpace (c : Char) : Bool :=
  c = ' ' || c = '\t' || c = '\n' || c = '\r' ||
  c = Char.ofNat 11 || c = Char.ofNat 12

/-- End of the maximal run of characters satisfying `p` starting at `idx`. -/
def runEnd (p : Char → Bool) (src : List Char) (idx : Nat) : Nat :=
  idx + ((src.drop idx).takeWhile p).length

/-- Whether `^` of a `re.MULTILINE` pattern matches at `idx`: start of the
buffer, or immediately after a `'\n'` (Python's `^` does not fire after a
bare `'\r'`). -/
def atLineStart (src : List Char) (idx : Nat) : Bool :=
  match idx with
  | 0 => true
  | i + 1 => src.get? i == some '\n'

/-- The `[\n\r]*([\n\r]|\Z)` trailer shared by the templates: succeeds iff at
least one line terminator follows or the end of input is reached; consumes
the whole terminator run. -/
def nlTrailer (src : List Char) (idx : Nat) : Option Nat :=
  let e := runEnd isNL src idx
  if idx < e then some e
  else if e = src.length then some e
  else none

/-- `_blank_re` (lines 94-98): `^ (\#[^\n\r]*)? [\n\r]*([\n\r]|\Z)`. -/
def blankMatch (src : List Char) (idx : Nat) : Option Nat :=
  if atLineStart src idx then
    let p := if src.get? idx == some '#'
             then runEnd (fun c => !(isNL c)) src (idx + 1)
             else idx
    nlTrailer src p
  else none

/-- `_header_re` (lines 100-106): `^ \[ (?P<section>[\-\w]+) \]` then the
end-of-line trailer.  Returns the section name and the match end. -/
def headerMatch (src : List Char) (idx : Nat) : Option (String × Nat) :=
  if atLineStart src idx then
    if src.get? idx == some '[' then
      let ns := idx + 1
      let ne := runEnd isNameChar src ns
      if ns < ne then
        if src.get? ne == some ']' then
          match nlTrailer src (ne + 1) with
          | some e => some (String.mk ((src.drop ns).take (ne - ns)), e)
          | none => none
        else none
      else none
    else none
  else none

/-- `_key_re` (lines 108-114): `^ (?P<key>[\-\w]+) \s* = \s*`.  Returns the
key and the match end (just after the whitespace following `=`; note `\s`
includes line terminators). -/
def keyMatch (src : List Char) (idx : Nat) : Option (String × Nat) :=
  if atLineStart src idx then
    let ke := runEnd isNameChar src idx
    if idx < ke then
      let p1 := runEnd isPySpace src ke
      if src.get? p1 == some '=' then
        some (String.mk ((src.drop idx).take (ke - idx)), runEnd isPySpace src (p1 + 1))
      else none
    else none
  else none

/-- `_eol_re` (lines 116-118): the end-of-line trailer with no `^` anchor. -/
def eolMatch (src : List Char) (idx : Nat) : Option Nat :=
  nlTrailer src idx

/-! ### The JSON value decoder (`json.JSONDecoder().raw_decode`) -/

/-- JSON whitespace: space, tab, newline, carriage return. -/
def jsonWS (c : Char) : Bool := c = ' ' || c = '\t' || c = '\n' || c = '\r'

/-- The single-character string escapes `\" \\ \/ \b \f \n \r \t`. -/
def escChar (e : Char) : Option Char :=
  if e = '"' then some '"'
  else if e = '\\' then some '\\'
  else if e = '/' then some '/'
  else if e = 'b' then some (Char.ofNat 8)
  else if e = 'f' then some (Char.ofNat 12)
  else if e = 'n' then some '\n'
  else if e = 'r' then some '\r'
  else if e = 't' then some '\t'
  else none

/-- Value of one hexadecimal digit. -/
def hexVal (c : Char) : Option Nat :=
  if c.isDigit then some (c.toNat - 48)
  else if 'a' ≤ c ∧ c ≤ 'f' then some (c.toNat - 87)
  else if 'A' ≤ c ∧ c ≤ 'F' then some (c.toNat - 55)
  else none

/-- Scan a JSON string body after the opening quote: returns the decoded
characters and the remainder after the closing quote.  Strict mode: raw
control characters below 0x20 and unknown escapes are errors.  A `\uXXXX`
escape becomes the code point directly (surrogate-pair combination is not
modelled; no claim needs it). -/
def strScanAux : Nat → List Char → Option (List Char × List Char)
  | 0, _ => none
  | _ + 1, [] => none
  | fuel + 1, c :: rest =>
    if c = '"' then some ([], rest)
    else if c = '\\' then
      match rest with
      | [] => none
      | e :: rest2 =>
        if e = 'u' then
          match rest2 with
          | h1 :: h2 :: h3 :: h4 :: rest3 =>
            match hexVal h1, hexVal h2, hexVal h3, hexVal h4 with
            | some a, some b, some c3, some d =>
              match strScanAux fuel rest3 with
              | some (tail, rem) =>
                some (Char.ofNat (a * 4096 + b * 256 + c3 * 16 + d) :: tail, rem)
              | none => none
            | _, _, _, _ => none
          | _ => none
        else
          match escChar e with
          | some ec =>
            match strScanAux fuel rest2 with
            | some (tail, rem) => some (ec :: tail, rem)
            | none => none
          | none => none
    else if c.toNat < 32 then none
    else
      match strScanAux fuel rest with
      | some (tail, rem) => some (c :: tail, rem)
      | none => none

/-- The number regex of the decoder:
`(-?(?:0|[1-9]\d*))(\.\d+)?([eE][-+]?\d+)?`.  Returns the lexeme and the
remainder. -/
def parseNumber (cs : List Char) : Option (String × List Char) :=
  let (sgn, cs1) :=
    match cs with
    | '-' :: r => (['-'], r)
    | _ => (([] : List Char), cs)
  let ip? : Option (List Char × List Char) :=
    match cs1 with
    | '0' :: r => some (['0'], r)
    | c :: r =>
      if c.isDigit then some (c :: r.takeWhile Char.isDigit, r.dropWhile Char.isDigit)
      else none
    | [] => none
  match ip? with
  | none => none
  | some (ip, cs2) =>
    let (fr, cs3) :=
      match cs2 with
      | '.' :: r =>
        let ds := r.takeWhile Char.isDigit
        if ds.isEmpty then (([] : List Char), cs2)
        else ('.' :: ds, r.dropWhile Char.isDigit)
      | _ => (([] : List Char), cs2)
    let (ex, cs4) :=
      match cs3 with
      | e :: r =>
        if e = 'e' ∨ e = 'E' then
          let (es, r2) :=
            match r with
            | '+' :: r3 => ((['+'] : List Char), r3)
            | '-' :: r3 => ((['-'] : List Char), r3)
            | _ => (([] : List Char), r)
          let ds := r2.takeWhile Char.isDigit
          if ds.isEmpty then (([] : List Char), cs3)
          else (e :: (es ++ ds), r2.dropWhile Char.isDigit)
        else (([] : List Char), cs3)
      | [] => (([] : List Char), cs3)
    some (String.mk (sgn ++ ip ++ fr ++ ex), cs4)

mutual

/-- One JSON value at the head of the input (no leading whitespace allowed,
as in `raw_decode`): strings, objects, arrays, the three constants, numbers,
and the Python extensions `NaN`, `Infinity`, `-Infinity`.  `none` models
`JSONDecodeError`.  The fuel only bounds nesting and is always sufficient at
`length + 1`. -/
def parseValue : Nat → List Char → Option (JSONValue × List Char)
  | 0, _ => none
  | _ + 1, [] => none
  | fuel + 1, c :: rest =>
    if c = '"' then
      match strScanAux (rest.length + 1) rest with
      | some (chars, rem) => some (.str (String.mk chars), rem)
      | none => none
    else if c = '{' then
      let cs1 := rest.dropWhile jsonWS
      match cs1 with
      | '}' :: rem => some (.obj [], rem)
      | _ =>
        match parseObjItems fuel cs1 with
        | some (xs, rem) => some (.obj xs, rem)
        | none => none
    else if c = '[' then
      let cs1 := rest.dropWhile jsonWS
      match cs1 with
      | ']' :: rem => some (.arr [], rem)
      | _ =>
        match parseArrItems fuel cs1 with
        | some (xs, rem) => some (.arr xs, rem)
        | none => none
    else
      match c :: rest with
      | 'n' :: 'u' :: 'l' :: 'l' :: rem => some (.null, rem)
      | 't' :: 'r' :: 'u' :: 'e' :: rem => some (.bool true, rem)
      | 'f' :: 'a' :: 'l' :: 's' :: 'e' :: rem => some (.bool false, rem)
      | cs =>
        match parseNumber cs with
        | some (lx, rem) => some (.num lx, rem)
        | none =>
          match cs with
          | 'N' :: 'a' :: 'N' :: rem => some (.num "NaN", rem)
          | 'I' :: 'n' :: 'f' :: 'i' :: 'n' :: 'i' :: 't' :: 'y' :: rem =>
            some (.num "Infinity", rem)
          | '-' :: 'I' :: 'n' :: 'f' :: 'i' :: 'n' :: 'i' :: 't' :: 'y' :: rem =>
            some (.num "-Infinity", rem)
          | _ => none

/-- The items of a non-empty array, positioned at a value start (whitespace
already skipped): value, then `,` more items or `]`. -/
def parseArrItems : Nat → List Char → Option (List JSONValue × List Char)
  | 0, _ => none
  | fuel + 1, cs =>
    match parseValue fuel cs with
    | none => none
    | some (v, rem) =>
      let r1 := rem.dropWhile jsonWS
      match r1 with
      | ']' :: r2 => some ([v], r2)
      | ',' :: r2 =>
        match parseArrItems fuel (r2.dropWhile jsonWS) with
        | some (vs, r3) => some (v :: vs, r3)
        | none => none
      | _ => none

/-- The members of a non-empty object, positioned at the opening quote of a
key: string key, `:`, value, then `,` more members or a closing brace. -/
def parseObjItems : Nat → List Char → Option (List (String × JSONValue) × List Char)
  | 0, _ => none
  | fuel + 1, cs =>
    match cs with
    | '"' :: rest =>
      match strScanAux (rest.length + 1) rest with
      | none => none
      | some (kchars, r1) =>
        let r2 := r1.dropWhile jsonWS
        match r2 with
        | ':' :: r3 =>
          match parseValue fuel (r3.dropWhile jsonWS) with
          | none => none
          | some (v, r4) =>
            let r5 := r4.dropWhile jsonWS
            match r5 with
            | '}' :: r6 => some ([(String.mk kchars, v)], r6)
            | ',' :: r6 =>
              match parseObjItems fuel (r6.dropWhile jsonWS) with
              | some (xs, r7) => some ((String.mk kchars, v) :: xs, r7)
              | none => none
            | _ => none
        | _ => none
    | _ => none

end

/-- `self._json_decoder.raw_decode(string, idx)` (line 327): decode one JSON
value starting exactly at `idx`; returns the value and the index after it.
`none` models the raised `JSONDecodeError` (a `ValueError`, not one of the
module's `ParseError` classes). -/
def rawDecode (src : List Char) (idx : Nat) : Option (JSONValue × Nat) :=
  match parseValue (src.length + 1) (src.drop idx) with
  | some (v, rem) => some (v, src.length - rem.length)
  | none => none

/-! ### The scanning loop of read_string -/

/-- What `cursect` references: `None` (before any header), the defaults dict,
or a stored section's dict. -/
inductive CurSect where
  | noneYet
  | defaults
  | sect (name : String)
deriving Repr, DecidableEq

/-- The loop state of `read_string` (lines 272-280): the configuration being
mutated, the per-call duplicate-tracking sets, the current section name, the
current target dict, and the scan offset.  `lineno` stays `0` in the source
(the `TODO increment lineno` comment at line 326) and is omitted. -/
structure ScanSt where
  cfg : JSONConfigParser
  sectionsAdded : List String
  entriesAdded : List String
  sectname : Option String
  cursect : CurSect
  idx : Nat

/-- Write a decoded value into the current target dict
(`cursect[optname] = optval`, line 328): the defaults or a stored section's
own layer (a ChainMap write goes to its first map). -/
def writeSection (cfg : JSONConfigParser) (n k : String) (v : JSONValue) :
    JSONConfigParser :=
  { cfg with sections :=
      match odGet cfg.sections n with
      | some s => odSet cfg.sections n { s with own := odSet s.own k v }
      | none => cfg.sections }

/-- Lines 330-334: consume the end-of-line trailer after a decoded value. -/
def scanAfterValue (src : List Char) (st : ScanSt) (idx3 : Nat) :
    Except PyError (Sum ScanSt JSONConfigParser) :=
  match eolMatch src idx3 with
  | none => .error (.parseError "unexpected symbol or whitespace")
  | some idx4 => .ok (Sum.inl { st with idx := idx4 })

/-- One iteration of the `read_string` scanning loop (lines 282-334), or the
final configuration when the offset has reached the end of the input. -/
def scanStep (src : List Char) (st : ScanSt) :
    Except PyError (Sum ScanSt JSONConfigParser) :=
  if h : st.idx < src.length then
    if src[st.idx] = '[' then
      match headerMatch src st.idx with
      | none =>
        -- line 286 is `raise ParseError()`: ParseError.__init__ requires the
        -- positional argument `message`, so the construction itself raises
        -- TypeError before any ParseError exists.
        .error (.typeError "ParseError missing 1 required positional argument: message")
      | some (sectname, idx2) =>
        if strMem sectname st.sectionsAdded then
          .error (.duplicateSection sectname)
        else if sectname = st.cfg.default_section then
          .ok (Sum.inl { cfg := st.cfg, sectionsAdded := sectname :: st.sectionsAdded,
                         entriesAdded := [], sectname := some sectname,
                         cursect := CurSect.defaults, idx := idx2 })
        else if (odGet st.cfg.sections sectname).isSome then
          .ok (Sum.inl { cfg := st.cfg, sectionsAdded := sectname :: st.sectionsAdded,
                         entriesAdded := [], sectname := some sectname,
                         cursect := CurSect.sect sectname, idx := idx2 })
        else
          -- line 301: a section first seen by the parser becomes a plain
          -- dict, not a ChainMap over the defaults.
          .ok (Sum.inl { cfg := { st.cfg with
                                  sections := odSet st.cfg.sections sectname ⟨[], false⟩ },
                         sectionsAdded := sectname :: st.sectionsAdded,
                         entriesAdded := [], sectname := some sectname,
                         cursect := CurSect.sect sectname, idx := idx2 })
    else if src[st.idx] = '#' ∨ src[st.idx] = '\n' ∨ src[st.idx] = '\r' then
      match blankMatch src st.idx with
      | none =>
        -- lines 308-309 call `mo.end()` without testing the match for None;
        -- on None this raises AttributeError (reachable only when the
        -- MULTILINE `^` fails, e.g. right after a bare carriage return).
        .error (.attributeError "end")
      | some idx2 => .ok (Sum.inl { st with idx := idx2 })
    else
      match keyMatch src st.idx with
      | none => .error (.parseError "expected section, option, comment or empty line")
      | some (optname, idx2) =>
        if strMem optname st.entriesAdded then
          -- line 321 is `raise DuplicateOptionError(sectname, optname, fpname,
          -- lineno)`: DuplicateOptionError.__init__ accepts one positional
          -- argument, so the construction raises TypeError.
          .error (.typeError "DuplicateOptionError takes 2 positional arguments but 5 were given")
        else
          match rawDecode src idx2 with
          | none => .error (.jsonDecodeError idx2)
          | some (optval, idx3) =>
            match st.cursect with
            | CurSect.noneYet =>
              -- line 328 `cursect[optname] = optval` with cursect still None:
              -- an option before any header ends here.
              .error (.typeError "NoneType object does not support item assignment")
            | CurSect.defaults =>
              scanAfterValue src
                { st with cfg := { st.cfg with
                                   defaults := odSet st.cfg.defaults optname optval },
                          entriesAdded := optname :: st.entriesAdded } idx3
            | CurSect.sect n =>
              scanAfterValue src
                { st with cfg := writeSection st.cfg n optname optval,
                          entriesAdded := optname :: st.entriesAdded } idx3
  else .ok (Sum.inr st.cfg)

/-- The fueled driver of the scanning loop. -/
def scanLoop (src : List Char) : Nat → ScanSt → Except PyError JSONConfigParser
  | 0, _ => .error .fuelOut
  | fuel + 1, st =>
    match scanStep src st with
    | .error e => .error e
    | .ok (Sum.inr cfg) => .ok cfg
    | .ok (Sum.inl st2) => scanLoop src fuel st2

/-- Mirrors `read_string` (lines 272-334).  The fuel `length + 1` is an
artifact of the embedding: every loop iteration advances the offset, so it is
never exhausted on the inputs considered. -/
def JSONConfigParser.read_string (cfg : JSONConfigParser) (s : String) :
    Except PyError JSONConfigParser :=
  scanLoop s.data (s.data.length + 1) ⟨cfg, [], [], none, CurSect.noneYet, 0⟩

/-- Split a character buffer at line terminators. -/
def splitLines : List Char → List (List Char)
  | [] => [[]]
  | c :: rest =>
    if isNL c then [] :: splitLines rest
    else
      match splitLines rest with
      | [] => [[c]]
      | l :: ls => (c :: l) :: ls

/-- Whether some line of the text begins with a horizontal whitespace
character (space or tab); used to state claim C10. -/
def hasIndentedLine (s : String) : Bool :=
  (splitLines s.data).any (fun l =>
    match l with
    | c :: _ => c = ' ' || c = '\t'
    | [] => false)

/-! ### Helper lemmas -/

lemma getResolve_none (base : Option JSONValue) (opt : String)
    (vars : Option (OD JSONValue)) (h : chainFirst vars opt base = none) :
    getResolve base opt none vars = .error (.noOption opt)
    ∧ ∀ f, getResolve base opt (some f) vars = .ok f := by
  unfold getResolve
  rw [h]
  exact ⟨rfl, fun f => rfl⟩

lemma getResolve_some (base : Option JSONValue) (opt : String)
    (vars : Option (OD JSONValue)) (v : JSONValue)
    (h : chainFirst vars opt base = some v) :
    ∀ fb, getResolve base opt fb vars = .ok v := by
  intro fb
  unfold getResolve
  rw [h]

lemma odGet_odSet_ne {α : Type} :
    ∀ (m : OD α) (k k2 : String) (v : α), k ≠ k2 →
      odGet (odSet m k v) k2 = odGet m k2 := by
  intro m k k2 v hne
  induction m with
  | nil =>
    simp only [odSet, odGet]
    rw [if_neg hne]
  | cons p rest ih =>
    obtain ⟨k3, v3⟩ := p
    simp only [odSet]
    by_cases h3 : k3 = k
    · rw [if_pos h3]
      simp only [odGet]
      rw [if_neg (by rw [h3]; exact hne), if_neg (by rw [h3]; exact hne)]
    · rw [if_neg h3]
      simp only [odGet]
      by_cases h4 : k3 = k2
      · rw [if_pos h4, if_pos h4]
      · rw [if_neg h4, if_neg h4, ih]

lemma odSet_fresh {α : Type} :
    ∀ (m : OD α) (k : String) (v : α), odGet m k = none →
      odSet m k v = m ++ [(k, v)] := by
  intro m k v
  induction m with
  | nil => intro _; rfl
  | cons p rest ih =>
    obtain ⟨k2, v2⟩ := p
    intro h
    simp only [odGet] at h
    by_cases h2 : k2 = k
    · rw [if_pos h2] at h
      simp at h
    · rw [if_neg h2] at h
      simp only [odSet]
      rw [if_neg h2, ih h]
      rfl

lemma foldl_odSet_append {α : Type} :
    ∀ (entries acc : OD α),
      (∀ p ∈ entries, odGet acc p.1 = none) →
      ((entries.map Prod.fst).Nodup) →
      entries.foldl (fun m q => odSet m q.1 q.2) acc = acc ++ entries := by
  intro entries
  induction entries with
  | nil => intro acc _ _; simp
  | cons p rest ih =>
    intro acc hfresh hnd
    obtain ⟨k, v⟩ := p
    simp only [List.map_cons, List.nodup_cons] at hnd
    have hacc : odGet acc k = none := hfresh (k, v) (List.mem_cons_self _ _)
    have hfresh2 : ∀ q ∈ rest, odGet (odSet acc k v) q.1 = none := by
      intro q hq
      have hne : k ≠ q.1 := fun he =>
        hnd.1 (by rw [he]; exact List.mem_map_of_mem _ hq)
      rw [odGet_odSet_ne acc k q.1 v hne]
      exact hfresh q (List.mem_cons_of_mem _ hq)
    calc List.foldl (fun m q => odSet m q.1 q.2) acc ((k, v) :: rest)
        = List.foldl (fun m q => odSet m q.1 q.2) (odSet acc k v) rest := rfl
      _ = odSet acc k v ++ rest := ih (odSet acc k v) hfresh2 hnd.2
      _ = (acc ++ [(k, v)]) ++ rest := by rw [odSet_fresh acc k v hacc]
      _ = acc ++ (k, v) :: rest := by rw [List.append_assoc]; rfl

lemma odGet_of_mem {α : Type} :
    ∀ (d : OD α) (k : String) (v : α),
      ((d.map Prod.fst).Nodup) → (k, v) ∈ d → odGet d k = some v := by
  intro d
  induction d with
  | nil => intro k v _ h; cases h
  | cons p rest ih =>
    intro k v hnd hmem
    obtain ⟨k2, v2⟩ := p
    simp only [List.map_cons, List.nodup_cons] at hnd
    rcases List.mem_cons.mp hmem with heq | hmem2
    · have hk : k = k2 := congrArg Prod.fst heq
      have hv : v = v2 := congrArg Prod.snd heq
      simp only [odGet]
      rw [if_pos hk.symm, hv]
    · have hne : k2 ≠ k := by
        intro he
        exact hnd.1 (by rw [he]; exact List.mem_map_of_mem _ hmem2)
      simp only [odGet]
      rw [if_neg hne]
      exact ih k v hnd.2 hmem2

lemma readDictEntries_default (ds : String) :
    ∀ (entries : OD JSONValue) (dft : OD JSONValue) (secs : OD SectionDict)
      (seen : List String),
      (∀ p ∈ entries, validName p.1 = true) →
      (∀ p ∈ entries, strMem p.1 seen = false) →
      ((entries.map Prod.fst).Nodup) →
      readDictEntries ds ⟨ds, dft, secs⟩ seen entries
        = .ok ⟨ds, entries.foldl (fun m q => odSet m q.1 q.2) dft, secs⟩ := by
  intro entries
  induction entries with
  | nil => intro dft secs seen _ _ _; rfl
  | cons p rest ih =>
    intro dft secs seen hv hs hnd
    obtain ⟨k, v⟩ := p
    simp only [List.map_cons, List.nodup_cons] at hnd
    have hvk := hv (k, v) (List.mem_cons_self _ _)
    have hsk := hs (k, v) (List.mem_cons_self _ _)
    have hset : JSONConfigParser.set ⟨ds, dft, secs⟩ ds k v
        = .ok ⟨ds, odSet dft k v, secs⟩ := by
      unfold JSONConfigParser.set
      rw [if_pos (Or.inr rfl)]
    have hstep : readDictEntries ds ⟨ds, dft, secs⟩ seen ((k, v) :: rest)
        = readDictEntries ds ⟨ds, odSet dft k v, secs⟩ (k :: seen) rest := by
      simp only [readDictEntries]
      rw [if_pos hvk, if_neg (by rw [hsk]; exact Bool.false_ne_true), hset]
    have hs2 : ∀ q ∈ rest, strMem q.1 (k :: seen) = false := by
      intro q hq
      have hne : k ≠ q.1 := fun he =>
        hnd.1 (by rw [he]; exact List.mem_map_of_mem _ hq)
      simp only [strMem]
      rw [if_neg hne]
      exact hs q (List.mem_cons_of_mem _ hq)
    rw [hstep, ih (odSet dft k v) secs (k :: seen)
          (fun q hq => hv q (List.mem_cons_of_mem _ hq)) hs2 hnd.2]
    rfl

lemma runEnd_head_false (p : Char → Bool) (src : List Char) (idx : Nat)
    (h : idx < src.length) (hp : p src[idx] = false) :
    runEnd p src idx = idx := by
  unfold runEnd
  rw [List.drop_eq_getElem_cons h, List.takeWhile_cons, hp]
  rfl

lemma keyMatch_none_of_not_name (src : List Char) (idx : Nat)
    (h : idx < src.length) (hp : isNameChar src[idx] = false) :
    keyMatch src idx = none := by
  cases hA : atLineStart src idx
  · simp [keyMatch, hA]
  · simp [keyMatch, hA, runEnd_head_false isNameChar src idx h hp]

/-! ### The claims -/

/-- C1: the claim states that for every value in the defaults layer,
`get(s, o)` falls back to it for every existing section with no own entry,
whether `s` was created by `add_section` or by a `[s]` header in
`read_string`.  The code violates the `read_string` half: a section first
seen by the parser is a plain dict (line 301), not a `ChainMap` over the
defaults, so with defaults `o = "v"` and the section `s` created by parsing
`"[s]\n"`, `get("s", "o")` raises `NoOptionError` — even though
`has_option("s", "o")` is `True` and a section created by `add_section` does
see the same defaults value. -/
theorem c1_read_string_section_skips_defaults :
    JSONConfigParser.set (emptyConfig "DEFAULT") "DEFAULT" "o" (JSONValue.str "v")
      = .ok ⟨"DEFAULT", [("o", JSONValue.str "v")], []⟩
    ∧ JSONConfigParser.read_string ⟨"DEFAULT", [("o", JSONValue.str "v")], []⟩ "[s]\n"
      = .ok ⟨"DEFAULT", [("o", JSONValue.str "v")], [("s", ⟨[], false⟩)]⟩
    ∧ JSONConfigParser.get ⟨"DEFAULT", [("o", JSONValue.str "v")], [("s", ⟨[], false⟩)]⟩
        "s" "o" none none = .error (.noOption "o")
    ∧ JSONConfigParser.has_option ⟨"DEFAULT", [("o", JSONValue.str "v")], [("s", ⟨[], false⟩)]⟩
        "s" "o" = true
    ∧ JSONConfigParser.add_section ⟨"DEFAULT", [("o", JSONValue.str "v")], []⟩ "t"
      = .ok ⟨"DEFAULT", [("o", JSONValue.str "v")], [("t", ⟨[], true⟩)]⟩
    ∧ JSONConfigParser.get ⟨"DEFAULT", [("o", JSONValue.str "v")], [("t", ⟨[], true⟩)]⟩
        "t" "o" none none = .ok (JSONValue.str "v") :=
  ⟨rfl, rfl, rfl, rfl, rfl, rfl⟩

/-- C2: the claim states that an option line before any section header raises
the `MissingSectionHeader` condition.  The code instead reaches
`cursect[optname] = optval` (line 328) with `cursect` still `None` and dies
with a `TypeError`; the `MissingSectionHeaderError` class (lines 37-45) is
never raised anywhere. -/
theorem c2_option_before_header_typeerror :
    JSONConfigParser.read_string (emptyConfig "DEFAULT") "foo = 1\n"
      = .error (.typeError "NoneType object does not support item assignment") := rfl

/-- C3: the claim states that a repeated section header raises
`DuplicateSection` (which holds) and that a repeated option key under one
header raises `DuplicateOption`.  The second half fails: line 321 calls
`DuplicateOptionError(sectname, optname, fpname, lineno)` but the class
`__init__` accepts a single positional argument, so the raise site itself
dies with a `TypeError`. -/
theorem c3_duplicate_section_and_option :
    JSONConfigParser.read_string (emptyConfig "DEFAULT") "[a]\n[a]\n"
      = .error (.duplicateSection "a")
    ∧ JSONConfigParser.read_string (emptyConfig "DEFAULT") "[a]\nk = 1\nk = 2\n"
      = .error (.typeError "DuplicateOptionError takes 2 positional arguments but 5 were given") :=
  ⟨rfl, rfl⟩

/-- C4: `get(section, option, fallback)` fails with `NoSection` when the
section is neither the default section nor stored; when the section resolves
and the vars → own → defaults chain finds nothing, it fails with `NoOption`
without a fallback and returns the fallback (even a null value) without
raising when one is supplied; when the chain finds a value, that value is
returned regardless of the fallback. -/
theorem c4_get_error_contract (cfg : JSONConfigParser) (sect opt : String)
    (vars : Option (OD JSONValue)) :
    (sect ≠ cfg.default_section → odGet cfg.sections sect = none →
      ∀ fb, JSONConfigParser.get cfg sect opt fb vars = .error (.noSection sect))
    ∧ ((sect = cfg.default_section ∨ (odGet cfg.sections sect).isSome = true) →
      (JSONConfigParser.lookupChain cfg sect opt vars = none →
        JSONConfigParser.get cfg sect opt none vars = .error (.noOption opt)
        ∧ ∀ f, JSONConfigParser.get cfg sect opt (some f) vars = .ok f)
      ∧ ∀ v, JSONConfigParser.lookupChain cfg sect opt vars = some v →
        ∀ fb, JSONConfigParser.get cfg sect opt fb vars = .ok v) := by
  constructor
  · intro hne hnone fb
    unfold JSONConfigParser.get
    rw [if_neg hne, hnone]
  · intro hsec
    have key : ∃ base,
        (∀ fb, JSONConfigParser.get cfg sect opt fb vars = getResolve base opt fb vars)
        ∧ JSONConfigParser.lookupChain cfg sect opt vars = chainFirst vars opt base := by
      by_cases hd : sect = cfg.default_section
      · exact ⟨odGet cfg.defaults opt,
          fun fb => by unfold JSONConfigParser.get; rw [if_pos hd],
          by unfold JSONConfigParser.lookupChain; rw [if_pos hd]⟩
      · obtain ⟨s, hs⟩ := Option.isSome_iff_exists.mp (hsec.resolve_left hd)
        exact ⟨sectionLookup cfg s opt,
          fun fb => by unfold JSONConfigParser.get; rw [if_neg hd, hs],
          by unfold JSONConfigParser.lookupChain; rw [if_neg hd, hs]⟩
    obtain ⟨base, hget, hchain⟩ := key
    constructor
    · intro hnone
      rw [hchain] at hnone
      constructor
      · rw [hget]
        exact (getResolve_none base opt vars hnone).1
      · intro f
        rw [hget]
        exact (getResolve_none base opt vars hnone).2 f
    · intro v hv fb
      rw [hchain] at hv
      rw [hget]
      exact getResolve_some base opt vars v hv fb

/-- C4 witness: the three error-contract cases of `c4_get_error_contract` at
a concrete configuration with defaults empty and one `add_section` section
`s`. -/
theorem c4_witness :
    JSONConfigParser.get ⟨"DEFAULT", [], [("s", ⟨[], true⟩)]⟩ "t" "o" none none
      = .error (.noSection "t")
    ∧ JSONConfigParser.get ⟨"DEFAULT", [], [("s", ⟨[], true⟩)]⟩ "s" "o" none none
      = .error (.noOption "o")
    ∧ JSONConfigParser.get ⟨"DEFAULT", [], [("s", ⟨[], true⟩)]⟩ "s" "o"
        (some JSONValue.null) none = .ok JSONValue.null := by
  refine ⟨(c4_get_error_contract ⟨"DEFAULT", [], [("s", ⟨[], true⟩)]⟩ "t" "o" none).1
    (by decide) rfl none, ?_, ?_⟩
  · exact (((c4_get_error_contract ⟨"DEFAULT", [], [("s", ⟨[], true⟩)]⟩ "s" "o" none).2
      (Or.inr rfl)).1 rfl).1
  · exact (((c4_get_error_contract ⟨"DEFAULT", [], [("s", ⟨[], true⟩)]⟩ "s" "o" none).2
      (Or.inr rfl)).1 rfl).2 JSONValue.null

/-- C5 counterexample: the claim states that `remove_section` on the default
section name fails with a "cannot remove default" error and never silently
returns.  In the code `remove_section` (lines 160-169) has no default-section
check and no raise statement: on a fresh configuration it silently returns
`False` for the default name. -/
theorem c5_counterexample :
    JSONConfigParser.remove_section (emptyConfig "DEFAULT") "DEFAULT"
      = (emptyConfig "DEFAULT", false) := rfl

/-- C5 as amended: `remove_section(name)` returns exactly whether the section
existed (the default section is never stored among the sections, so for the
default name it returns `False` without raising); the "cannot remove the
default section" failure lives in `__delitem__`, which raises `ValueError`
for the default name. -/
theorem c5_remove_section_contract (cfg : JSONConfigParser) (sect : String) :
    (JSONConfigParser.remove_section cfg sect).2 = (odGet cfg.sections sect).isSome
    ∧ JSONConfigParser.delitem cfg cfg.default_section
      = .error (.valueError "Cannot remove the default section.") := by
  constructor
  · unfold JSONConfigParser.remove_section
    cases h : (odGet cfg.sections sect).isSome <;> simp [h]
  · unfold JSONConfigParser.delitem
    rw [if_pos rfl]

/-- C6: the claim states that `options(s)` returns the option names visible
in an existing section `s` and fails with `NoSection` otherwise.  The
`NoSection` half holds, but the success path of the code (line 205) reads
`self._section`, an attribute that is never assigned anywhere in the class,
and so raises `AttributeError` for every existing section. -/
theorem c6_options_attribute_error :
    JSONConfigParser.add_section (emptyConfig "DEFAULT") "s"
      = .ok ⟨"DEFAULT", [], [("s", ⟨[], true⟩)]⟩
    ∧ JSONConfigParser.options ⟨"DEFAULT", [], [("s", ⟨[], true⟩)]⟩ "s"
      = .error (.attributeError "_section")
    ∧ JSONConfigParser.options ⟨"DEFAULT", [], [("s", ⟨[], true⟩)]⟩ "t"
      = .error (.noSection "t") :=
  ⟨rfl, rfl, rfl⟩

/-- C7: constructing a configuration succeeds and yields the empty model, and
construction seeded with a defaults mapping `d` (distinct, grammar-valid
keys) succeeds with every entry of `d` visible through
`get(default_section, k)`.  The seeding path goes through the spec-modelled
`read_dict` (the source body is a `NotImplementedError` stub). -/
theorem c7_lifecycle (d : OD JSONValue)
    (hnd : (d.map Prod.fst).Nodup)
    (hv : ∀ p ∈ d, validName p.1 = true) :
    JSONConfigParser.initConfig none "DEFAULT" = .ok (emptyConfig "DEFAULT")
    ∧ JSONConfigParser.initConfig (some d) "DEFAULT" = .ok ⟨"DEFAULT", d, []⟩
    ∧ ∀ k v, (k, v) ∈ d →
        JSONConfigParser.get ⟨"DEFAULT", d, []⟩ "DEFAULT" k none none = .ok v := by
  have hfold : d.foldl (fun m q => odSet m q.1 q.2) ([] : OD JSONValue) = d := by
    have h := foldl_odSet_append d [] (fun p _ => rfl) hnd
    simpa using h
  refine ⟨rfl, ?_, ?_⟩
  · cases d with
    | nil => rfl
    | cons p rest =>
      have h1 : JSONConfigParser.initConfig (some (p :: rest)) "DEFAULT"
          = match readDictEntries "DEFAULT" ⟨"DEFAULT", [], []⟩ [] (p :: rest) with
            | .error e => .error e
            | .ok cfg2 => readDictSections cfg2 ["DEFAULT"] [] := rfl
      rw [h1, readDictEntries_default "DEFAULT" (p :: rest) [] [] []
            hv (fun q _ => rfl) hnd, hfold]
      rfl
  · intro k v hmem
    have hget : JSONConfigParser.get ⟨"DEFAULT", d, []⟩ "DEFAULT" k none none
        = getResolve (odGet d k) k none none := by
      unfold JSONConfigParser.get
      rw [if_pos rfl]
    rw [hget, odGet_of_mem d k v hnd hmem]
    rfl

/-- C7 witness: `c7_lifecycle` at the concrete defaults mapping
`a = 1, b = null`. -/
theorem c7_witness :
    JSONConfigParser.initConfig
        (some [("a", JSONValue.num "1"), ("b", JSONValue.null)]) "DEFAULT"
      = .ok ⟨"DEFAULT", [("a", JSONValue.num "1"), ("b", JSONValue.null)], []⟩
    ∧ JSONConfigParser.get ⟨"DEFAULT", [("a", JSONValue.num "1"), ("b", JSONValue.null)], []⟩
        "DEFAULT" "b" none none = .ok JSONValue.null := by
  have h := c7_lifecycle [("a", JSONValue.num "1"), ("b", JSONValue.null)]
    (by decide) (by decide)
  exact ⟨h.2.1, h.2.2 "b" JSONValue.null
    (List.mem_cons_of_mem _ (List.mem_cons_self _ _))⟩

/-- C8: the claim states that section-view item assignment delegates to the
store's `set` and never fails for a valid name and JSON value.  In the code
`SectionProxy.__setitem__` (lines 358-360) first calls
`self._parser._validate_value_types(...)`, an attribute `JSONConfigParser`
never defines, so every item assignment raises `AttributeError` before `set`
is reached. -/
theorem c8_proxy_setitem_attribute_error :
    proxySetItem ⟨"DEFAULT", [], [("s", ⟨[], true⟩)]⟩ "s" "k" (JSONValue.str "v")
      = .error (.attributeError "_validate_value_types") := rfl

/-- C9: the claim states that every `read_string` failure is one of the
specified parse-error conditions carrying file name, accurate line number and
offending line text.  The code provides none of this: a malformed section
header reaches `raise ParseError()` (line 286), which itself dies with a
`TypeError` because `ParseError.__init__` requires `message`; a bad JSON
value escapes as a `JSONDecodeError` (a `ValueError` outside the module's
taxonomy); and the one reachable `ParseError` carries only a message string —
no file name, no line text, and `lineno`, never incremented (`TODO` at line
326), stays 0. -/
theorem c9_parse_failures_lack_context :
    JSONConfigParser.read_string (emptyConfig "DEFAULT") "\n\n[!]\n"
      = .error (.typeError "ParseError missing 1 required positional argument: message")
    ∧ JSONConfigParser.read_string (emptyConfig "DEFAULT") "[s]\nk = @\n"
      = .error (.jsonDecodeError 8)
    ∧ JSONConfigParser.read_string (emptyConfig "DEFAULT") "!x\n"
      = .error (.parseError "expected section, option, comment or empty line") :=
  ⟨rfl, rfl, rfl⟩

/-- C10 counterexample: the claim quantifies over every input text containing
a line that begins with a space or tab.  A line beginning with horizontal
whitespace inside a multi-line JSON value is consumed as part of the value:
`"[s]\nk = [1,\n 2]\n"` contains the space-led line `" 2]"` yet parses
successfully. -/
theorem c10_counterexample :
    hasIndentedLine "[s]\nk = [1,\n 2]\n" = true
    ∧ JSONConfigParser.read_string (emptyConfig "DEFAULT") "[s]\nk = [1,\n 2]\n"
      = .ok ⟨"DEFAULT", [],
             [("s", ⟨[("k", JSONValue.arr [JSONValue.num "1", JSONValue.num "2"])], false⟩)]⟩ :=
  ⟨rfl, rfl⟩

/-- C10 as amended: none of the blank/comment, section-header or option
productions accepts leading horizontal whitespace at a construct boundary:
whenever the scanner of `read_string` stands on a space or tab, the step
raises the generic `ParseError` — but a space- or tab-led line that lies
inside a multi-line JSON value is consumed as part of the value and raises
nothing (see the counterexample). -/
theorem c10_no_leading_whitespace_production (src : List Char) (st : ScanSt)
    (h : st.idx < src.length)
    (hc : src[st.idx] = ' ' ∨ src[st.idx] = '\t') :
    scanStep src st
      = .error (.parseError "expected section, option, comment or empty line") := by
  have hp : isNameChar src[st.idx] = false := by
    rcases hc with hc | hc <;> rw [hc] <;> rfl
  have hkey := keyMatch_none_of_not_name src st.idx h hp
  unfold scanStep
  rw [dif_pos h]
  rcases hc with hc | hc <;>
    rw [hc, if_neg (by decide), if_neg (by decide), hkey]

/-- C10 witness: the amended theorem at the concrete input `" x = 1"` with
the scanner at offset 0. -/
theorem c10_witness :
    scanStep (" x = 1".data) ⟨emptyConfig "DEFAULT", [], [], none, CurSect.noneYet, 0⟩
      = .error (.parseError "expected section, option, comment or empty line") :=
  c10_no_leading_whitespace_production (" x = 1".data)
    ⟨emptyConfig "DEFAULT", [], [], none, CurSect.noneYet, 0⟩
    (by decide) (Or.inl (by decide))
